import Mathlib

/-!
Verification of the drag-drop project board (src/app.ts).

Shallow embedding conventions:
* JavaScript numbers are modelled as `Int` (the program only handles integer
  people counts and integer bounds; `NaN`, `-0` and fractional values do not
  arise in the program's own calls).
* A `string | number` union value is the inductive `Value`.
* Optional object fields (`required?`, `minLength?`, ...) are `Option` fields;
  `x != null` is `Option.isSome`, and JavaScript truthiness of an optional
  boolean is `Option.getD false`, of an optional number is `getD 0 != 0`.
* `value.toString()` is `jsToString`; `String.prototype.trim` is `jsTrim`
  (strip leading and trailing whitespace characters), and `.length` is Lean's
  `String.length`.
* The mutable object graph of `ProjectState` is modelled with an explicit heap:
  `Project` objects live in a list addressed by `Ref` indices, the store's
  `projects` array is a list of references, and `projects.slice()` — a shallow
  copy — is the reference list itself (fresh array, shared objects).
-/

namespace DragDrop

/-- The `ProjectStatus` enum of app.ts: ACTIVE and FINISHED. -/
inductive ProjectStatus where
  | ACTIVE
  | FINISHED
deriving DecidableEq, Repr, Inhabited

/-- The `string | number` union used by `Validatable.value`. -/
inductive Value where
  | str (s : String)
  | num (n : Int)
deriving DecidableEq, Repr

/-- `typeof value == 'string'`. -/
def Value.isStr : Value → Bool
  | .str _ => true
  | .num _ => false

/-- `typeof value == 'number'`. -/
def Value.isNum : Value → Bool
  | .str _ => false
  | .num _ => true

/-- The numeric payload of a `Value`; only used under an `isNum` guard,
as in the source, where the `typeof` check precedes the comparison. -/
def Value.asNum : Value → Int
  | .str _ => 0
  | .num n => n

/-- `value.toString()`: identity on strings, decimal rendering of numbers. -/
def jsToString : Value → String
  | .str s => s
  | .num n => toString n

/-- The `Validatable` interface of app.ts: a value plus optional constraints. -/
structure Validatable where
  value : Value
  required : Option Bool
  minLength : Option Int
  maxLength : Option Int
  min : Option Int
  max : Option Int
deriving DecidableEq, Repr

/-- `String.prototype.trim`: drop leading and trailing whitespace characters. -/
def jsTrim (s : String) : String :=
  ⟨((s.data.dropWhile Char.isWhitespace).reverse.dropWhile Char.isWhitespace).reverse⟩

/-- JavaScript truthiness of an optional number (`undefined` and `0` are falsy). -/
def numTruthy (o : Option Int) : Bool :=
  o.getD 0 != 0

/-- First guard of `validate`:
`validatableInput.required && stringValue.trim().length === 0`. -/
def requiredCheck (i : Validatable) : Bool :=
  i.required.getD false && ((jsTrim (jsToString i.value)).length == 0)

/-- Second guard of `validate`:
`minLength != null && typeof value == 'string' && stringValue.length <= minLength`. -/
def minLengthCheck (i : Validatable) : Bool :=
  i.minLength.isSome && i.value.isStr &&
    decide (((jsToString i.value).length : Int) ≤ i.minLength.getD 0)

/-- Third guard of `validate`:
`maxLength != null && typeof value == 'string' && stringValue.length >= maxLength`. -/
def maxLengthCheck (i : Validatable) : Bool :=
  i.maxLength.isSome && i.value.isStr &&
    decide (i.maxLength.getD 0 ≤ ((jsToString i.value).length : Int))

/-- Fourth guard of `validate`:
`min && typeof value == 'number' && value <= min` (note the truthiness test). -/
def minCheck (i : Validatable) : Bool :=
  numTruthy i.min && i.value.isNum && decide (i.value.asNum ≤ i.min.getD 0)

/-- Fifth guard of `validate`:
`max && typeof value == 'number' && value >= max` (note the truthiness test). -/
def maxCheck (i : Validatable) : Bool :=
  numTruthy i.max && i.value.isNum && decide (i.max.getD 0 ≤ i.value.asNum)

/-- The `validate` function of app.ts: five sequential guards, each returning
false when it fires, and true when none fires. -/
def validate (i : Validatable) : Bool :=
  if requiredCheck i then false
  else if minLengthCheck i then false
  else if maxLengthCheck i then false
  else if minCheck i then false
  else if maxCheck i then false
  else true

/-- A `Project` object of app.ts: id, title, description, people, status.
The id is produced by the caller of the constructor (`Math.random().toString()`
in `addProject`); here it is an explicit argument. -/
structure Project where
  id : String
  title : String
  description : String
  people : Int
  status : ProjectStatus
deriving DecidableEq, Repr, Inhabited

/-- A reference into the object heap: `Project` values are mutable JavaScript
objects, so the store's array holds references, not values. -/
abbrev Ref := Nat

/-- The mutable state of the `ProjectState` singleton together with the object
heap: `heap` holds the allocated `Project` objects (a `Ref` is an index),
`projects` is the private projects array (references), and `listeners` is the
registry inherited from `State`, holding opaque listener tokens in registration
order. -/
structure Store where
  heap : List Project
  projects : List Ref
  listeners : List Nat
deriving DecidableEq, Repr

/-- Read a project object through a reference. -/
def derefObj (s : Store) (r : Ref) : Project :=
  s.heap.getD r default

/-- A notification event: which listener was invoked, with which array.
`listenerFn(this.projects.slice())` hands over a fresh array holding the same
object references, so the delivered array is the reference list itself. -/
abbrev Event := Nat × List Ref

/-- `notifyListeners`: call every registered listener, in registry order, with
a shallow copy of the projects array. -/
def notifyListeners (s : Store) : List Event :=
  s.listeners.map (fun l => (l, s.projects))

/-- `addListener(listenerFn)` from the `State` base class: push onto the
registry. -/
def addListener (s : Store) (token : Nat) : Store :=
  { s with listeners := s.listeners ++ [token] }

/-- `addProject(title, description, numOfPeople)`: allocate a new `Project`
with status ACTIVE at a fresh heap address, push its reference onto the
projects array, and notify. Returns the new state and the emitted events. -/
def addProject (s : Store) (newId title description : String) (people : Int) :
    Store × List Event :=
  let r := s.heap.length
  let s' := { s with
    heap := s.heap ++ [⟨newId, title, description, people, ProjectStatus.ACTIVE⟩],
    projects := s.projects ++ [r] }
  (s', notifyListeners s')

/-- `this.projects.find(prj => prj.id === projectId)`: the first reference in
the projects array whose object has the given id. -/
def findProjectRef (s : Store) (pid : String) : Option Ref :=
  s.projects.find? (fun r => (derefObj s r).id == pid)

/-- `project.status = newStatus`: the in-place status assignment, as the new
object value written back at the project's heap address. -/
def setStatus (p : Project) (newStatus : ProjectStatus) : Project :=
  { p with status := newStatus }

/-- `moveProject(projectId, newStatus)`: find the project; if absent or the
status already equals `newStatus`, return without changes; otherwise mutate the
object's status in place and notify. -/
def moveProject (s : Store) (pid : String) (newStatus : ProjectStatus) :
    Store × List Event :=
  match findProjectRef s pid with
  | none => (s, [])
  | some r =>
    if (derefObj s r).status = newStatus then (s, [])
    else
      let s' := { s with heap := s.heap.set r (setStatus (derefObj s r) newStatus) }
      (s', notifyListeners s')

/-- The store's public operations, for reasoning about operation sequences. -/
inductive Op where
  | addListener (token : Nat)
  | addProject (newId title description : String) (people : Int)
  | moveProject (pid : String) (newStatus : ProjectStatus)

/-- One operation applied to a store state, with its emitted events
(`addListener` notifies nobody). -/
def step (s : Store) : Op → Store × List Event
  | .addListener t => (addListener s t, [])
  | .addProject nid t d p => addProject s nid t d p
  | .moveProject pid ns => moveProject s pid ns

/-- A sequence of operations, accumulating the event log. -/
def run : Store → List Op → Store × List Event
  | s, [] => (s, [])
  | s, op :: ops =>
    let p := step s op
    let q := run p.1 ops
    (q.1, p.2 ++ q.2)

theorem validate_eq_true_iff (i : Validatable) :
    validate i = true ↔
      requiredCheck i = false ∧ minLengthCheck i = false ∧ maxLengthCheck i = false ∧
      minCheck i = false ∧ maxCheck i = false := by
  unfold validate
  split_ifs
  all_goals simp_all

theorem validate_false_of_required {i : Validatable} (h : requiredCheck i = true) :
    validate i = false := by
  unfold validate; split_ifs <;> simp_all

theorem validate_false_of_minLength {i : Validatable} (h : minLengthCheck i = true) :
    validate i = false := by
  unfold validate; split_ifs <;> simp_all

theorem validate_false_of_maxLength {i : Validatable} (h : maxLengthCheck i = true) :
    validate i = false := by
  unfold validate; split_ifs <;> simp_all

theorem validate_false_of_min {i : Validatable} (h : minCheck i = true) :
    validate i = false := by
  unfold validate; split_ifs <;> simp_all

theorem validate_false_of_max {i : Validatable} (h : maxCheck i = true) :
    validate i = false := by
  unfold validate; split_ifs <;> simp_all

example : validate ⟨Value.str "hello", some true, some 2, some 9, none, none⟩ = true := by decide

example : validate ⟨Value.str "ab", none, some 2, none, none, none⟩ = false := by decide

example : validate ⟨Value.num 0, none, none, none, some 0, none⟩ = true := by decide

example : validate ⟨Value.num 1, some true, none, none, some 1, none⟩ = false := by decide

theorem str_eq_empty_of_length {s : String} (h : s.length = 0) : s = "" :=
  String.ext (List.length_eq_zero.mp h)

theorem validate_congr {i j : Validatable}
    (h1 : requiredCheck i = requiredCheck j) (h2 : minLengthCheck i = minLengthCheck j)
    (h3 : maxLengthCheck i = maxLengthCheck j) (h4 : minCheck i = minCheck j)
    (h5 : maxCheck i = maxCheck j) : validate i = validate j := by
  unfold validate
  rw [h1, h2, h3, h4, h5]

theorem Value.isStr_eq_false_of_isNum {v : Value} (h : v.isNum = true) : v.isStr = false := by
  cases v <;> simp_all [Value.isNum, Value.isStr]

theorem Value.isNum_eq_false_of_isStr {v : Value} (h : v.isStr = true) : v.isNum = false := by
  cases v <;> simp_all [Value.isNum, Value.isStr]

theorem requiredCheck_eq_false_of_trim {i : Validatable}
    (h : jsTrim (jsToString i.value) ≠ "") : requiredCheck i = false := by
  cases hb : i.required.getD false with
  | false => simp [requiredCheck, hb]
  | true =>
    simp only [requiredCheck, hb, Bool.true_and, beq_eq_false_iff_ne, ne_eq]
    intro hlen
    exact h (str_eq_empty_of_length hlen)

/-- Claim C5: with `required` set, the required guard of `validate` fires
exactly on an empty or whitespace-only string coercion of the value; and when
the trimmed coercion is non-empty, the `required` constraint has no effect on
the result at all, so it alone never causes `validate` to return false. -/
theorem validate_required_policy (i : Validatable) :
    (requiredCheck i = true ↔
      i.required.getD false = true ∧ jsTrim (jsToString i.value) = "") ∧
    (i.required.getD false = true → jsTrim (jsToString i.value) = "" →
      validate i = false) ∧
    (jsTrim (jsToString i.value) ≠ "" →
      validate i = validate { i with required := none }) := by
  refine ⟨?_, ?_, ?_⟩
  · simp only [requiredCheck, Bool.and_eq_true, beq_iff_eq]
    constructor
    · rintro ⟨h1, h2⟩
      exact ⟨h1, str_eq_empty_of_length h2⟩
    · rintro ⟨h1, h2⟩
      rw [h2]
      exact ⟨h1, rfl⟩
  · intro h1 h2
    apply validate_false_of_required
    simp [requiredCheck, h1, h2]
  · intro h
    refine validate_congr ?_ rfl rfl rfl rfl
    rw [requiredCheck_eq_false_of_trim h]
    simp [requiredCheck]

/-- Witness for C5 at concrete inputs: a whitespace-only required value is
rejected, and a non-blank required value validates like the same input without
the required constraint. -/
theorem validate_required_policy_witness :
    validate ⟨Value.str "   ", some true, none, none, none, none⟩ = false ∧
    validate ⟨Value.str " a ", some true, none, none, none, none⟩ =
      validate ⟨Value.str " a ", none, none, none, none, none⟩ := by
  constructor
  · exact (validate_required_policy _).2.1 rfl (by decide)
  · exact (validate_required_policy _).2.2 (by decide)

/-- Claim C6: a constraint of the wrong kind is silently ignored: length
bounds have no effect when the value is a number, numeric bounds have no
effect when the value is a string. -/
theorem validate_wrong_kind_ignored (i : Validatable) :
    (i.value.isNum = true →
      validate i = validate { i with minLength := none, maxLength := none }) ∧
    (i.value.isStr = true →
      validate i = validate { i with min := none, max := none }) := by
  constructor
  · intro h
    have hs : i.value.isStr = false := Value.isStr_eq_false_of_isNum h
    refine validate_congr rfl ?_ ?_ rfl rfl
    · simp [minLengthCheck, hs]
    · simp [maxLengthCheck, hs]
  · intro h
    have hn : i.value.isNum = false := Value.isNum_eq_false_of_isStr h
    refine validate_congr rfl rfl rfl ?_ ?_
    · simp [minCheck, hn]
    · simp [maxCheck, hn]

/-- Witness for C6 at concrete inputs: length bounds on a numeric value and
numeric bounds on a string value change nothing. -/
theorem validate_wrong_kind_ignored_witness :
    validate ⟨Value.num 3, none, some 10, some 1, none, none⟩ =
      validate ⟨Value.num 3, none, none, none, none, none⟩ ∧
    validate ⟨Value.str "ab", none, none, none, some 5, some 1⟩ =
      validate ⟨Value.str "ab", none, none, none, none, none⟩ :=
  ⟨(validate_wrong_kind_ignored _).1 rfl, (validate_wrong_kind_ignored _).2 rfl⟩

/-- Claim C9: a `min` or `max` bound configured as 0 is ignored entirely,
because the guard tests the bound's truthiness rather than its presence:
the result equals that of the same input with the bound absent. -/
theorem validate_min_max_zero_ignored (i : Validatable) :
    (i.min = some 0 → validate i = validate { i with min := none }) ∧
    (i.max = some 0 → validate i = validate { i with max := none }) := by
  constructor
  · intro h
    refine validate_congr rfl rfl rfl ?_ rfl
    simp [minCheck, numTruthy, h]
  · intro h
    refine validate_congr rfl rfl rfl rfl ?_
    simp [maxCheck, numTruthy, h]

/-- Witness for C9 at concrete inputs: min 0 does not reject a negative
number, and max 0 does not reject a positive number. -/
theorem validate_min_max_zero_ignored_witness :
    validate ⟨Value.num (-5), none, none, none, some 0, none⟩ =
      validate ⟨Value.num (-5), none, none, none, none, none⟩ ∧
    validate ⟨Value.num 7, none, none, none, none, some 0⟩ =
      validate ⟨Value.num 7, none, none, none, none, none⟩ :=
  ⟨(validate_min_max_zero_ignored _).1 rfl, (validate_min_max_zero_ignored _).2 rfl⟩

/-- Counterexample to C1 as stated: the input whose numeric value 0 is exactly
equal to its configured `min` bound 0 is accepted, not rejected, because the
`min` guard tests truthiness and 0 is falsy. -/
theorem validate_boundary_cex :
    (Validatable.mk (Value.num 0) none none none (some 0) none).value.asNum =
      (Validatable.mk (Value.num 0) none none none (some 0) none).min.getD 0 ∧
    validate (Validatable.mk (Value.num 0) none none none (some 0) none) = true := by
  decide

/-- Claim C1 as amended: strictly-inside inputs are accepted; an input exactly
at a configured `minLength` or `maxLength` bound is rejected, and one exactly
at a configured nonzero `min` or `max` bound is rejected (a `min` or `max`
configured as 0 is ignored by truthiness, see the counterexample). -/
theorem validate_boundary (i : Validatable) :
    ((i.required.getD false = true → jsTrim (jsToString i.value) ≠ "") →
     (∀ m, i.minLength = some m → i.value.isStr = true →
        m < ((jsToString i.value).length : Int)) →
     (∀ m, i.maxLength = some m → i.value.isStr = true →
        ((jsToString i.value).length : Int) < m) →
     (∀ m, i.min = some m → i.value.isNum = true → m < i.value.asNum) →
     (∀ m, i.max = some m → i.value.isNum = true → i.value.asNum < m) →
     validate i = true) ∧
    (∀ m, i.minLength = some m → i.value.isStr = true →
      ((jsToString i.value).length : Int) = m → validate i = false) ∧
    (∀ m, i.maxLength = some m → i.value.isStr = true →
      ((jsToString i.value).length : Int) = m → validate i = false) ∧
    (∀ m, i.min = some m → m ≠ 0 → i.value.isNum = true →
      i.value.asNum = m → validate i = false) ∧
    (∀ m, i.max = some m → m ≠ 0 → i.value.isNum = true →
      i.value.asNum = m → validate i = false) := by
  refine ⟨?_, ?_, ?_, ?_, ?_⟩
  · intro hreq hminL hmaxL hmin hmax
    rw [validate_eq_true_iff]
    refine ⟨?_, ?_, ?_, ?_, ?_⟩
    · cases hb : i.required.getD false with
      | false => simp [requiredCheck, hb]
      | true => exact requiredCheck_eq_false_of_trim (hreq hb)
    · cases hm : i.minLength with
      | none => simp [minLengthCheck, hm]
      | some m =>
        cases hs : i.value.isStr with
        | false => simp [minLengthCheck, hs]
        | true =>
          have := hminL m hm hs
          simp only [minLengthCheck, hm, hs, Option.isSome_some, Option.getD_some,
            Bool.true_and, decide_eq_false_iff_not, not_le]
          exact this
    · cases hm : i.maxLength with
      | none => simp [maxLengthCheck, hm]
      | some m =>
        cases hs : i.value.isStr with
        | false => simp [maxLengthCheck, hs]
        | true =>
          have := hmaxL m hm hs
          simp only [maxLengthCheck, hm, hs, Option.isSome_some, Option.getD_some,
            Bool.true_and, decide_eq_false_iff_not, not_le]
          exact this
    · cases hm : i.min with
      | none => simp [minCheck, numTruthy, hm]
      | some m =>
        cases hs : i.value.isNum with
        | false => simp [minCheck, hs]
        | true =>
          have := hmin m hm hs
          simp only [minCheck, numTruthy, hm, hs, Option.getD_some, Bool.and_assoc,
            Bool.and_eq_false_iff, decide_eq_false_iff_not, not_le]
          right; right
          exact this
    · cases hm : i.max with
      | none => simp [maxCheck, numTruthy, hm]
      | some m =>
        cases hs : i.value.isNum with
        | false => simp [maxCheck, hs]
        | true =>
          have := hmax m hm hs
          simp only [maxCheck, numTruthy, hm, hs, Option.getD_some, Bool.and_assoc,
            Bool.and_eq_false_iff, decide_eq_false_iff_not, not_le]
          right; right
          exact this
  · intro m hm hs hlen
    apply validate_false_of_minLength
    simp [minLengthCheck, hm, hs, hlen]
  · intro m hm hs hlen
    apply validate_false_of_maxLength
    simp [maxLengthCheck, hm, hs, hlen]
  · intro m hm hmz hs hval
    apply validate_false_of_min
    simp [minCheck, numTruthy, hm, hmz, hs, hval]
  · intro m hm hmz hs hval
    apply validate_false_of_max
    simp [maxCheck, numTruthy, hm, hmz, hs, hval]

/-- Witness for the amended C1 at concrete inputs: a strictly-inside string is
accepted; a string of exactly the minimum length is rejected; a number exactly
equal to a nonzero minimum is rejected. -/
theorem validate_boundary_witness :
    validate ⟨Value.str "abcd", some true, some 2, some 9, none, none⟩ = true ∧
    validate ⟨Value.str "ab", none, some 2, none, none, none⟩ = false ∧
    validate ⟨Value.num 5, none, none, none, some 5, none⟩ = false := by
  refine ⟨?_, ?_, ?_⟩
  · exact (validate_boundary _).1 (by decide) (by decide) (by decide) (by decide) (by decide)
  · exact (validate_boundary _).2.1 2 rfl rfl (by decide)
  · exact (validate_boundary _).2.2.2.1 5 rfl (by decide) rfl rfl

theorem getD_append_of_lt {α} [Inhabited α] {l l' : List α} {i : Nat}
    (h : i < l.length) : (l ++ l').getD i default = l.getD i default := by
  rw [List.getD_eq_getElem?_getD, List.getD_eq_getElem?_getD, List.getElem?_append]
  simp [h]

theorem getD_append_self {α} [Inhabited α] {l : List α} {x : α} :
    (l ++ [x]).getD l.length default = x := by
  rw [List.getD_eq_getElem?_getD, List.getElem?_append]
  simp

theorem getD_set_self {α} [Inhabited α] {l : List α} {i : Nat} {a : α}
    (h : i < l.length) : (l.set i a).getD i default = a := by
  rw [List.getD_eq_getElem?_getD, List.getElem?_set_self h]
  rfl

theorem getD_set_ne {α} [Inhabited α] {l : List α} {i j : Nat} {a : α}
    (h : i ≠ j) : (l.set i a).getD j default = l.getD j default := by
  rw [List.getD_eq_getElem?_getD, List.getD_eq_getElem?_getD, List.getElem?_set_ne h]

theorem moveProject_eq_of_found {s : Store} {pid : String} {ns : ProjectStatus} {r : Ref}
    (hr : findProjectRef s pid = some r) :
    moveProject s pid ns =
      if (derefObj s r).status = ns then (s, [])
      else
        (Store.mk (s.heap.set r (setStatus (derefObj s r) ns)) s.projects s.listeners,
         notifyListeners
           (Store.mk (s.heap.set r (setStatus (derefObj s r) ns)) s.projects s.listeners)) := by
  unfold moveProject
  rw [hr]

theorem moveProject_found_ne {s : Store} {pid : String} {ns : ProjectStatus} {r : Ref}
    (hf : findProjectRef s pid = some r) (hst : (derefObj s r).status ≠ ns) :
    (moveProject s pid ns).1.heap = s.heap.set r (setStatus (derefObj s r) ns) ∧
    (moveProject s pid ns).1.projects = s.projects ∧
    (moveProject s pid ns).1.listeners = s.listeners ∧
    (moveProject s pid ns).2 = notifyListeners (moveProject s pid ns).1 := by
  rw [moveProject_eq_of_found hf, if_neg hst]
  exact ⟨rfl, rfl, rfl, rfl⟩

theorem notifyListeners_tokens (s : Store) :
    (notifyListeners s).map Prod.fst = s.listeners := by
  simp [notifyListeners, Function.comp_def]

/-- Claim C3: moveProject updates a status only when a project with the id
exists and its status differs from the target; otherwise the state is returned
untouched and no notification event is emitted. In particular moving a project
to its current status is a no-op. -/
theorem moveProject_guard (s : Store) (pid : String) (ns : ProjectStatus) :
    ((∀ r ∈ s.projects, (derefObj s r).id ≠ pid) → moveProject s pid ns = (s, [])) ∧
    (∀ r, findProjectRef s pid = some r → (derefObj s r).status = ns →
      moveProject s pid ns = (s, [])) ∧
    (∀ r, findProjectRef s pid = some r → (derefObj s r).status ≠ ns →
      (moveProject s pid ns).1.heap = s.heap.set r (setStatus (derefObj s r) ns) ∧
      (moveProject s pid ns).1.projects = s.projects ∧
      (moveProject s pid ns).1.listeners = s.listeners ∧
      (moveProject s pid ns).2 = notifyListeners (moveProject s pid ns).1) := by
  refine ⟨?_, ?_, ?_⟩
  · intro h
    have hnone : findProjectRef s pid = none := by
      rw [findProjectRef, List.find?_eq_none]
      intro r hrmem
      simp [h r hrmem]
    unfold moveProject
    rw [hnone]
  · intro r hr hst
    rw [moveProject_eq_of_found hr, if_pos hst]
  · intro r hr hst
    exact moveProject_found_ne hr hst

/-- Witness for C3 at a concrete store: an unknown id is a no-op, moving to
the current status is a no-op, and a real move updates the status and
notifies. -/
theorem moveProject_guard_witness :
    moveProject ⟨[⟨"a", "t", "d", 1, ProjectStatus.ACTIVE⟩], [0], [7]⟩ "zz"
      ProjectStatus.FINISHED = (⟨[⟨"a", "t", "d", 1, ProjectStatus.ACTIVE⟩], [0], [7]⟩, []) ∧
    moveProject ⟨[⟨"a", "t", "d", 1, ProjectStatus.ACTIVE⟩], [0], [7]⟩ "a"
      ProjectStatus.ACTIVE = (⟨[⟨"a", "t", "d", 1, ProjectStatus.ACTIVE⟩], [0], [7]⟩, []) ∧
    (moveProject ⟨[⟨"a", "t", "d", 1, ProjectStatus.ACTIVE⟩], [0], [7]⟩ "a"
      ProjectStatus.FINISHED).1.heap =
      [⟨"a", "t", "d", 1, ProjectStatus.FINISHED⟩] := by
  refine ⟨?_, ?_, ?_⟩
  · exact (moveProject_guard _ _ _).1 (by decide)
  · exact (moveProject_guard _ _ _).2.1 0 (by decide) (by decide)
  · have h := ((moveProject_guard ⟨[⟨"a", "t", "d", 1, ProjectStatus.ACTIVE⟩], [0], [7]⟩
      "a" ProjectStatus.FINISHED).2.2 0 (by decide) (by decide)).1
    rw [h]
    decide

/-- Claim C4: addProject allocates a fresh Project with status ACTIVE, appends
its reference at the end of the projects array, and leaves every existing
project object and the listener registry unchanged. -/
theorem addProject_spec (s : Store) (nid t d : String) (p : Int) :
    (addProject s nid t d p).1.projects = s.projects ++ [s.heap.length] ∧
    derefObj (addProject s nid t d p).1 s.heap.length =
      ⟨nid, t, d, p, ProjectStatus.ACTIVE⟩ ∧
    (∀ r, r < s.heap.length →
      derefObj (addProject s nid t d p).1 r = derefObj s r) ∧
    (addProject s nid t d p).1.listeners = s.listeners := by
  refine ⟨rfl, ?_, ?_, rfl⟩
  · show (s.heap ++ [_]).getD s.heap.length default = _
    exact getD_append_self
  · intro r hrlt
    show (s.heap ++ [_]).getD r default = s.heap.getD r default
    exact getD_append_of_lt hrlt

/-- Witness for C4 at a concrete store: the added project lands at the end
with status ACTIVE and the existing project object is untouched. -/
theorem addProject_spec_witness :
    (addProject ⟨[⟨"a", "t", "d", 1, ProjectStatus.FINISHED⟩], [0], [7]⟩
      "b" "u" "e" 2).1.projects = [0, 1] ∧
    derefObj (addProject ⟨[⟨"a", "t", "d", 1, ProjectStatus.FINISHED⟩], [0], [7]⟩
      "b" "u" "e" 2).1 1 = ⟨"b", "u", "e", 2, ProjectStatus.ACTIVE⟩ ∧
    derefObj (addProject ⟨[⟨"a", "t", "d", 1, ProjectStatus.FINISHED⟩], [0], [7]⟩
      "b" "u" "e" 2).1 0 = ⟨"a", "t", "d", 1, ProjectStatus.FINISHED⟩ := by
  refine ⟨?_, ?_, ?_⟩
  · exact (addProject_spec _ _ _ _ _).1
  · exact (addProject_spec _ _ _ _ _).2.1
  · exact (addProject_spec _ _ _ _ _).2.2.1 0 (by decide)

/-- Claim C7: a notifying operation invokes every registered listener exactly
once, in registration order: the emitted token sequence equals the registry,
and addListener appends at the end, so registry order is registration order. -/
theorem notification_order (s : Store) (tok : Nat) (nid t d : String) (p : Int)
    (pid : String) (ns : ProjectStatus) :
    (addListener s tok).listeners = s.listeners ++ [tok] ∧
    (addProject s nid t d p).2.map Prod.fst = s.listeners ∧
    (∀ r, findProjectRef s pid = some r → (derefObj s r).status ≠ ns →
      (moveProject s pid ns).2.map Prod.fst = s.listeners) := by
  refine ⟨rfl, ?_, ?_⟩
  · exact notifyListeners_tokens _
  · intro r hr hst
    rw [moveProject_eq_of_found hr, if_neg hst]
    exact notifyListeners_tokens _

/-- Witness for C7 at a concrete store with two listeners: a status-changing
move notifies tokens 3 then 8, the registration order. -/
theorem notification_order_witness :
    (moveProject ⟨[⟨"a", "t", "d", 1, ProjectStatus.ACTIVE⟩], [0], [3, 8]⟩ "a"
      ProjectStatus.FINISHED).2.map Prod.fst = [3, 8] := by
  exact (notification_order ⟨[⟨"a", "t", "d", 1, ProjectStatus.ACTIVE⟩], [0], [3, 8]⟩
    0 "" "" "" 0 "a" ProjectStatus.FINISHED).2.2 0 (by decide) (by decide)

theorem step_listeners_append (s : Store) (op : Op) :
    ∃ tail, (step s op).1.listeners = s.listeners ++ tail := by
  cases op with
  | addListener t => exact ⟨[t], rfl⟩
  | addProject nid ti d p => exact ⟨[], by simp [step, addProject]⟩
  | moveProject pid ns =>
    refine ⟨[], ?_⟩
    rw [List.append_nil]
    show (moveProject s pid ns).1.listeners = s.listeners
    cases hf : findProjectRef s pid with
    | none =>
      unfold moveProject
      rw [hf]
    | some r =>
      rw [moveProject_eq_of_found hf]
      split
      · rfl
      · rfl

theorem run_listeners_append (ops : List Op) :
    ∀ s : Store, ∃ tail, (run s ops).1.listeners = s.listeners ++ tail := by
  induction ops with
  | nil => exact fun s => ⟨[], by simp [run]⟩
  | cons op ops ih =>
    intro s
    obtain ⟨t1, h1⟩ := step_listeners_append s op
    obtain ⟨t2, h2⟩ := ih (step s op).1
    refine ⟨t1 ++ t2, ?_⟩
    simp only [run]
    rw [h2, h1, List.append_assoc]

/-- Claim C8: the listener registry is append-only: any operation sequence
extends the registry on the right, addListener grows it by exactly one, and
every previously registered listener stays at its position; no operation
removes a listener. -/
theorem listeners_append_only (s : Store) (ops : List Op) (tok : Nat) (i : Nat) :
    (∃ tail, (run s ops).1.listeners = s.listeners ++ tail) ∧
    (addListener s tok).listeners = s.listeners ++ [tok] ∧
    (addListener s tok).listeners.length = s.listeners.length + 1 ∧
    (i < s.listeners.length → (run s ops).1.listeners[i]? = s.listeners[i]?) := by
  refine ⟨run_listeners_append ops s, rfl, by simp [addListener], ?_⟩
  intro hi
  obtain ⟨tail, h⟩ := run_listeners_append ops s
  rw [h, List.getElem?_append]
  simp [hi]

/-- Witness for C8: on a concrete store with one listener, a three-operation
sequence keeps it at position 0. -/
theorem listeners_append_only_witness :
    (run ⟨[], [], [4]⟩ [Op.addProject "a" "t" "d" 1, Op.addListener 9,
      Op.moveProject "a" ProjectStatus.FINISHED]).1.listeners[0]? = some 4 := by
  have h := (listeners_append_only ⟨[], [], [4]⟩ [Op.addProject "a" "t" "d" 1,
    Op.addListener 9, Op.moveProject "a" ProjectStatus.FINISHED] 0 0).2.2.2 (by decide)
  rw [h]
  decide

/-- Claim C10: when moveProject performs an update, only the status field of
the single matched project object changes: its other fields, every other
project object, the projects array (hence length and order), and the listener
registry are all unchanged. -/
theorem moveProject_frame (s : Store) (pid : String) (ns : ProjectStatus) (r : Ref)
    (hfind : findProjectRef s pid = some r) (hr : r < s.heap.length)
    (hst : (derefObj s r).status ≠ ns) :
    (moveProject s pid ns).1.projects = s.projects ∧
    (moveProject s pid ns).1.listeners = s.listeners ∧
    (moveProject s pid ns).1.heap.length = s.heap.length ∧
    (derefObj (moveProject s pid ns).1 r).id = (derefObj s r).id ∧
    (derefObj (moveProject s pid ns).1 r).title = (derefObj s r).title ∧
    (derefObj (moveProject s pid ns).1 r).description = (derefObj s r).description ∧
    (derefObj (moveProject s pid ns).1 r).people = (derefObj s r).people ∧
    (derefObj (moveProject s pid ns).1 r).status = ns ∧
    (∀ r2, r2 ≠ r → derefObj (moveProject s pid ns).1 r2 = derefObj s r2) := by
  obtain ⟨hheap, hproj, hlist, _⟩ := moveProject_found_ne hfind hst
  have hobj : derefObj (moveProject s pid ns).1 r = setStatus (derefObj s r) ns := by
    show (moveProject s pid ns).1.heap.getD r default = _
    rw [hheap]
    exact getD_set_self hr
  refine ⟨hproj, hlist, ?_, ?_, ?_, ?_, ?_, ?_, ?_⟩
  · rw [hheap]
    simp
  · rw [hobj]
    rfl
  · rw [hobj]
    rfl
  · rw [hobj]
    rfl
  · rw [hobj]
    rfl
  · rw [hobj]
    rfl
  · intro r2 hne
    show (moveProject s pid ns).1.heap.getD r2 default = s.heap.getD r2 default
    rw [hheap]
    exact getD_set_ne (fun he => hne he.symm)

/-- Witness for C10 at a concrete two-project store: moving the second project
changes only its status; the first project, the array and the registry stay. -/
theorem moveProject_frame_witness :
    (moveProject ⟨[⟨"a", "t", "d", 1, ProjectStatus.ACTIVE⟩,
        ⟨"b", "u", "e", 2, ProjectStatus.ACTIVE⟩], [0, 1], [7]⟩ "b"
      ProjectStatus.FINISHED).1.projects = [0, 1] ∧
    derefObj (moveProject ⟨[⟨"a", "t", "d", 1, ProjectStatus.ACTIVE⟩,
        ⟨"b", "u", "e", 2, ProjectStatus.ACTIVE⟩], [0, 1], [7]⟩ "b"
      ProjectStatus.FINISHED).1 0 = ⟨"a", "t", "d", 1, ProjectStatus.ACTIVE⟩ ∧
    (derefObj (moveProject ⟨[⟨"a", "t", "d", 1, ProjectStatus.ACTIVE⟩,
        ⟨"b", "u", "e", 2, ProjectStatus.ACTIVE⟩], [0, 1], [7]⟩ "b"
      ProjectStatus.FINISHED).1 1).title = "u" := by
  have h := moveProject_frame ⟨[⟨"a", "t", "d", 1, ProjectStatus.ACTIVE⟩,
    ⟨"b", "u", "e", 2, ProjectStatus.ACTIVE⟩], [0, 1], [7]⟩ "b" ProjectStatus.FINISHED 1
    (by decide) (by decide) (by decide)
  exact ⟨h.1, h.2.2.2.2.2.2.2.2 0 (by decide), h.2.2.2.2.1⟩

theorem moveProject_fields_frame (s : Store) (pid : String) (ns : ProjectStatus)
    (r : Ref) (hr : r < s.heap.length) :
    r < (moveProject s pid ns).1.heap.length ∧
    (derefObj (moveProject s pid ns).1 r).id = (derefObj s r).id ∧
    (derefObj (moveProject s pid ns).1 r).title = (derefObj s r).title ∧
    (derefObj (moveProject s pid ns).1 r).description = (derefObj s r).description ∧
    (derefObj (moveProject s pid ns).1 r).people = (derefObj s r).people := by
  cases hf : findProjectRef s pid with
  | none =>
    have hid : moveProject s pid ns = (s, []) := by
      unfold moveProject
      rw [hf]
    rw [hid]
    exact ⟨hr, rfl, rfl, rfl, rfl⟩
  | some r1 =>
    by_cases hst : (derefObj s r1).status = ns
    · have hid : moveProject s pid ns = (s, []) := by
        rw [moveProject_eq_of_found hf, if_pos hst]
      rw [hid]
      exact ⟨hr, rfl, rfl, rfl, rfl⟩
    · obtain ⟨hheap, _, _, _⟩ := moveProject_found_ne hf hst
      have hlen : (moveProject s pid ns).1.heap.length = s.heap.length := by
        rw [hheap]
        simp
      by_cases he : r1 = r
      · subst he
        have hobj : derefObj (moveProject s pid ns).1 r1 = setStatus (derefObj s r1) ns := by
          show (moveProject s pid ns).1.heap.getD r1 default = _
          rw [hheap]
          exact getD_set_self hr
        rw [hobj]
        exact ⟨by rw [hlen]; exact hr, rfl, rfl, rfl, rfl⟩
      · have hobj : derefObj (moveProject s pid ns).1 r = derefObj s r := by
          show (moveProject s pid ns).1.heap.getD r default = s.heap.getD r default
          rw [hheap]
          exact getD_set_ne he
        rw [hobj]
        exact ⟨by rw [hlen]; exact hr, rfl, rfl, rfl, rfl⟩

theorem step_fields_frame (s : Store) (op : Op) (r : Ref) (hr : r < s.heap.length) :
    r < (step s op).1.heap.length ∧
    (derefObj (step s op).1 r).id = (derefObj s r).id ∧
    (derefObj (step s op).1 r).title = (derefObj s r).title ∧
    (derefObj (step s op).1 r).description = (derefObj s r).description ∧
    (derefObj (step s op).1 r).people = (derefObj s r).people := by
  cases op with
  | addListener t => exact ⟨hr, rfl, rfl, rfl, rfl⟩
  | addProject nid ti d p =>
    have hobj : derefObj (step s (Op.addProject nid ti d p)).1 r = derefObj s r := by
      show (s.heap ++ [Project.mk nid ti d p ProjectStatus.ACTIVE]).getD r default =
        s.heap.getD r default
      exact getD_append_of_lt hr
    rw [hobj]
    refine ⟨?_, rfl, rfl, rfl, rfl⟩
    show r < (s.heap ++ [Project.mk nid ti d p ProjectStatus.ACTIVE]).length
    rw [List.length_append]
    exact Nat.lt_succ_of_lt hr
  | moveProject pid ns => exact moveProject_fields_frame s pid ns r hr

theorem run_fields_frame (ops : List Op) :
    ∀ (s : Store) (r : Ref), r < s.heap.length →
      r < (run s ops).1.heap.length ∧
      (derefObj (run s ops).1 r).id = (derefObj s r).id ∧
      (derefObj (run s ops).1 r).title = (derefObj s r).title ∧
      (derefObj (run s ops).1 r).description = (derefObj s r).description ∧
      (derefObj (run s ops).1 r).people = (derefObj s r).people := by
  induction ops with
  | nil => exact fun s r hr => ⟨hr, rfl, rfl, rfl, rfl⟩
  | cons op ops ih =>
    intro s r hr
    obtain ⟨h1, h2, h3, h4, h5⟩ := step_fields_frame s op r hr
    obtain ⟨g1, g2, g3, g4, g5⟩ := ih (step s op).1 r h1
    simp only [run]
    exact ⟨g1, g2.trans h2, g3.trans h3, g4.trans h4, g5.trans h5⟩

/-- Counterexample to C2 as stated: `projects.slice()` is a shallow copy, so a
snapshot shares its Project objects with the store. Starting from a store with
one registered listener (token 0), addProject delivers the snapshot holding
reference 0, whose object then has status ACTIVE; the subsequent moveProject
mutates that same object in place to FINISHED, changing a field of the
already-delivered snapshot's element. -/
theorem snapshot_mutation_cex :
    (addProject ⟨[], [], [0]⟩ "id1" "task" "desc" 1).2 = [(0, [0])] ∧
    (derefObj (addProject ⟨[], [], [0]⟩ "id1" "task" "desc" 1).1 0).status =
      ProjectStatus.ACTIVE ∧
    (derefObj (moveProject (addProject ⟨[], [], [0]⟩ "id1" "task" "desc" 1).1
        "id1" ProjectStatus.FINISHED).1 0).status = ProjectStatus.FINISHED := by
  decide

/-- Claim C2 as amended: later store operations never change a snapshot
element's id, title, description, or people fields, and never change the
snapshot's reference list; only the status field of a shared element may
change, through moveProject's in-place mutation (see the counterexample). -/
theorem snapshot_fields_frame (s : Store) (ops : List Op) (r : Ref)
    (hr : r < s.heap.length) :
    (derefObj (run s ops).1 r).id = (derefObj s r).id ∧
    (derefObj (run s ops).1 r).title = (derefObj s r).title ∧
    (derefObj (run s ops).1 r).description = (derefObj s r).description ∧
    (derefObj (run s ops).1 r).people = (derefObj s r).people := by
  obtain ⟨_, h2, h3, h4, h5⟩ := run_fields_frame ops s r hr
  exact ⟨h2, h3, h4, h5⟩

/-- Witness for the amended C2 at a concrete store: after an addProject, a
move of the first project and another addProject, the first project object
still has its original id, title, description and people values. -/
theorem snapshot_fields_frame_witness :
    (derefObj (run ⟨[⟨"a", "t", "d", 1, ProjectStatus.ACTIVE⟩], [0], [0]⟩
      [Op.moveProject "a" ProjectStatus.FINISHED, Op.addProject "b" "u" "e" 2]).1 0).id =
      "a" ∧
    (derefObj (run ⟨[⟨"a", "t", "d", 1, ProjectStatus.ACTIVE⟩], [0], [0]⟩
      [Op.moveProject "a" ProjectStatus.FINISHED, Op.addProject "b" "u" "e" 2]).1 0).people =
      1 := by
  have h := snapshot_fields_frame ⟨[⟨"a", "t", "d", 1, ProjectStatus.ACTIVE⟩], [0], [0]⟩
    [Op.moveProject "a" ProjectStatus.FINISHED, Op.addProject "b" "u" "e" 2] 0 (by decide)
  exact ⟨h.1, h.2.2.2⟩

end DragDrop
